import Mathlib

/-!
Verification of `src/AlarmClock.h` (repository StopWatch): a resettable,
interruptible countdown timer with a single background worker thread.

The embedding models:
* the shared mutable fields of `AlarmClock` (`mExpired`, `mSleptTime`,
  `mExit`, `mReset`) as a record `AlarmState`;
* the public operations `Expired`, `Reset`, `SleptTime`,
  `StopBackgroundThread` and the destructor as pure functions of that
  record (a `Bool` component records whether `notify_all` / `join` was
  performed);
* the default sleep strategy `SleepUs` as a pure function of the duration
  and an oracle giving the value of `mReset || mExit` observed at each
  1-microsecond check (the function also returns how many 1-microsecond
  sleeps were performed, to state duration properties);
* the worker thread body `AlarmClockInterruptableThread`, together with the
  interleaved calls of `Reset()` and the destructor's `mExit.store(true)`,
  as a small-step labelled transition system on configurations
  (shared state, worker program location).  Each worker step is one atomic
  action of the source (an atomic load/store, or a whole mutex-protected
  critical section, which the lock makes atomic with respect to `Reset`).
  `mCondition.wait` parks the worker; only `notify_all` (issued by `Reset`)
  wakes it, following the spec's suspension model (no spurious wakeups).
-/

/-- Shared mutable fields of `AlarmClock` (`mExpired`, `mSleptTime` are
`atomic<unsigned int>`, `mExit`, `mReset` are `atomic<bool>`). -/
structure AlarmState where
  mExpired : Nat
  mSleptTime : Nat
  mExit : Bool
  mReset : Bool
  deriving DecidableEq

/-- The field values established by the constructor's initializer list:
`mExpired(0), mSleptTime(0), mExit(false), mReset(false)`. -/
def AlarmClock.construct : AlarmState :=
  { mExpired := 0, mSleptTime := 0, mExit := false, mReset := false }

/-- Method `Expired()` : `return mExpired.load();` — the `unsigned int` is
converted to `bool` (nonzero means true).  The second component is the
state after the call (the method only performs the load, so it returns the
state unchanged). -/
def ExpiredOp (s : AlarmState) : Bool × AlarmState :=
  (s.mExpired != 0, s)

/-- The boolean value `Expired()` returns in state `s`. -/
def Expired (s : AlarmState) : Bool :=
  (ExpiredOp s).1

/-- Method `Reset()` : under `mMutex`, `mReset.store(true); mExpired.store(0);
mCondition.notify_all();`.  The boolean component records that
`notify_all` was invoked. -/
def Reset (s : AlarmState) : AlarmState × Bool :=
  let s1 := { s with mReset := true }
  let s2 := { s1 with mExpired := 0 }
  (s2, true)

/-- Method `SleptTime()` : `return mSleptTime.load();`. -/
def SleptTime (s : AlarmState) : Nat :=
  s.mSleptTime

/-- Method `StopBackgroundThread()` : joins the worker exactly when
`mTimerThread.joinable() && mExit`.  Returns whether the join was
performed. -/
def StopBackgroundThread (joinable : Bool) (s : AlarmState) : Bool :=
  joinable && s.mExit

/-- The destructor `~AlarmClock()` : `mExit.store(true);
StopBackgroundThread();`.  Returns the state after the store together with
whether the join was performed.  Note that no `notify_all` occurs on this
path. -/
def destructor (joinable : Bool) (s : AlarmState) : AlarmState × Bool :=
  let s1 := { s with mExit := true }
  (s1, StopBackgroundThread joinable s1)

/-- The loop of `SleepUs(t)` : `for (int i = 1; i < t; i++) {
sleep_for(1us); if (mReset || mExit) return 1; } return 0;`.
`flagAt i` is the value of `mReset || mExit` observed at the check
following the `i`-th 1-microsecond sleep; `slept` counts the
1-microsecond sleeps performed so far; the last argument is the number of
loop iterations still allowed by the guard `i < t`, i.e. `t - i`, so
exhausting it is exactly the guard failing.  Returns the function's return
value paired with the total number of 1-microsecond sleeps. -/
def SleepUsGo (flagAt : Nat → Bool) (i : Nat) (slept : Nat) :
    Nat → Nat × Nat
  | 0 => (0, slept)
  | Nat.succ fuel =>
      if flagAt i then (1, slept + 1)
      else SleepUsGo flagAt (i + 1) (slept + 1) fuel

/-- Function `SleepUs(t)` : the default sleep strategy, entered with `i = 1` and no
sleeps performed yet; the guard `i < t` allows `t - 1` iterations. -/
def SleepUs (t : Nat) (flagAt : Nat → Bool) : Nat × Nat :=
  SleepUsGo flagAt 1 0 (t - 1)

/-- Lines 77–82 of the worker body: given the strategy's return value,
`if (retVal == 0) { mExpired++; } else if (mExit) { break; }`.
The boolean component records whether the `break` was taken. -/
def handleSleepResult (retVal : Nat) (s : AlarmState) : AlarmState × Bool :=
  if retVal == 0 then ({ s with mExpired := s.mExpired + 1 }, false)
  else if s.mExit then (s, true)
  else (s, false)

/-- Runs `n` consecutive executions of the post-sleep increment step with an
injected strategy whose return value is constantly `retVal` (the strategy
performs no real sleeping, so iterations follow each other directly). -/
def iterateStrategy (retVal : Nat) : Nat → AlarmState → AlarmState
  | 0, s => s
  | Nat.succ n, s => iterateStrategy retVal n (handleSleepResult retVal s).1

/-- Program locations of the worker thread running
`AlarmClockInterruptableThread` with the default strategy `SleepUs`.
`sleeping i` is the head of `SleepUs`'s for-loop with counter value `i`;
`afterSleep r` is line 77 with `retVal = r`; `checkReset` is the
mutex-protected test `if (!mReset)`; `waiting` is parked inside
`mCondition.wait(lck)`; `clearReset` is `mReset.store(false)` (still under
the mutex); `loopCheck` is the `while (!mExit)` test; `exited` means the
thread function returned. -/
inductive Loc where
  | run
  | sleeping (i : Nat)
  | afterSleep (retVal : Nat)
  | preLock
  | checkReset
  | waiting
  | clearReset
  | loopCheck
  | exited
  deriving DecidableEq

/-- A configuration: the shared fields plus the worker's location. -/
structure Sys where
  shared : AlarmState
  loc : Loc
  deriving DecidableEq

/-- The configuration right after the constructor returns: fields from the
initializer list, worker spawned at the top of the do-while body. -/
def initSys : Sys :=
  { shared := AlarmClock.construct, loc := Loc.run }

/-- One atomic step of the worker (parameter `t` is the immutable
`kSleepTimeUsCount`).  `none` means the worker has no enabled step: this
happens exactly at `waiting`, where only a `notify_all` can wake it, and
at `exited`.  Each `sleeping` step performs one `sleep_for(1us)` followed
by the check of `mReset || mExit`; the mutex-protected sections
(`checkReset`, `clearReset`) are single atomic steps because `Reset()`
runs under the same mutex. -/
def workerStep (t : Nat) (c : Sys) : Option Sys :=
  match c.loc with
  | Loc.run => some { c with loc := Loc.sleeping 1 }
  | Loc.sleeping i =>
      if i < t then
        if c.shared.mReset || c.shared.mExit then
          some { c with loc := Loc.afterSleep 1 }
        else
          some { c with loc := Loc.sleeping (i + 1) }
      else
        some { c with loc := Loc.afterSleep 0 }
  | Loc.afterSleep r =>
      if r == 0 then
        some { c with
                 shared := { c.shared with mExpired := c.shared.mExpired + 1 },
                 loc := Loc.preLock }
      else if c.shared.mExit then
        some { c with loc := Loc.exited }
      else
        some { c with loc := Loc.preLock }
  | Loc.preLock => some { c with loc := Loc.checkReset }
  | Loc.checkReset =>
      if c.shared.mReset then
        some { c with loc := Loc.clearReset }
      else
        some { c with loc := Loc.waiting }
  | Loc.waiting => none
  | Loc.clearReset =>
      some { c with
               shared := { c.shared with mReset := false },
               loc := Loc.loopCheck }
  | Loc.loopCheck =>
      if c.shared.mExit then
        some { c with loc := Loc.exited }
      else
        some { c with loc := Loc.run }
  | Loc.exited => none

/-- The whole body of `Reset()` as one atomic action (it holds `mMutex`
throughout): sets `mReset`, zeroes `mExpired`, and `notify_all` wakes the
worker if it is parked — a woken worker resumes at `mReset.store(false)`,
the statement after `mCondition.wait(lck)`. -/
def resetStep (c : Sys) : Sys :=
  { shared := { c.shared with mReset := true, mExpired := 0 },
    loc := if c.loc = Loc.waiting then Loc.clearReset else c.loc }

/-- The destructor's first action, `mExit.store(true)`.  It does not touch
`mCondition`, so the worker's location is unchanged (in particular a
parked worker stays parked). -/
def exitStoreStep (c : Sys) : Sys :=
  { c with shared := { c.shared with mExit := true } }

/-- Events that drive the system: a worker step, a `Reset()` call by some
owner thread, or the destructor's `mExit.store(true)`. -/
inductive Ev where
  | worker
  | resetCall
  | exitStore
  deriving DecidableEq

/-- The labelled interleaving semantics. -/
inductive Step (t : Nat) : Sys → Ev → Sys → Prop where
  | worker {c c' : Sys} (h : workerStep t c = some c') : Step t c Ev.worker c'
  | resetCall (c : Sys) : Step t c Ev.resetCall (resetStep c)
  | exitStore (c : Sys) : Step t c Ev.exitStore (exitStoreStep c)

/-- Some step with any label. -/
def StepAny (t : Nat) (c c' : Sys) : Prop :=
  ∃ e, Step t c e c'

/-- Reachability in the interleaving semantics. -/
def Reach (t : Nat) : Sys → Sys → Prop :=
  Relation.ReflTransGen (StepAny t)

/-- Steps available while the owner is inside the destructor: worker steps
and the destructor's own store.  No `Reset()` can occur any more. -/
def TeardownStep (t : Nat) (c c' : Sys) : Prop :=
  Step t c Ev.worker c' ∨ Step t c Ev.exitStore c'

/-- The parked configuration the worker reaches after a countdown expires
with no reset pending: one expiry recorded, both flags clear, worker
blocked in `mCondition.wait`. -/
def parkedSys : Sys :=
  { shared := { mExpired := 1, mSleptTime := 0, mExit := false, mReset := false },
    loc := Loc.waiting }

/-- If the flag is never set during the remaining iterations, the loop runs
them all to completion and returns 0, having slept once per iteration. -/
lemma sleepUsGo_no_flag (flagAt : Nat → Bool) :
    ∀ (fuel i slept : Nat), (∀ k, i ≤ k → k < i + fuel → flagAt k = false) →
      SleepUsGo flagAt i slept fuel = (0, slept + fuel) := by
  intro fuel
  induction fuel with
  | zero => intro i slept _; rfl
  | succ n ih =>
      intro i slept h
      have hi : flagAt i = false := h i le_rfl (by omega)
      simp only [SleepUsGo, hi, Bool.false_eq_true, if_false]
      rw [ih (i + 1) (slept + 1) (fun k hk1 hk2 => h k (by omega) (by omega))]
      simp only [Prod.mk.injEq]
      exact ⟨trivial, by omega⟩

/-- If the flag first becomes true at check `j` (within the loop's range),
the loop returns 1 right after the `j`-th sleep. -/
lemma sleepUsGo_first_flag (flagAt : Nat → Bool) :
    ∀ (fuel i slept j : Nat), i ≤ j → j < i + fuel → flagAt j = true →
      (∀ k, i ≤ k → k < j → flagAt k = false) →
      SleepUsGo flagAt i slept fuel = (1, slept + (j - i) + 1) := by
  intro fuel
  induction fuel with
  | zero =>
      intro i slept j h1 h2 _ _
      exact absurd h2 (by omega)
  | succ n ih =>
      intro i slept j h1 h2 hj hmin
      by_cases hij : i = j
      · subst hij
        simp only [SleepUsGo, hj, if_true]
        simp
      · have hlt : i < j := lt_of_le_of_ne h1 hij
        have hi : flagAt i = false := hmin i le_rfl hlt
        simp only [SleepUsGo, hi, Bool.false_eq_true, if_false]
        rw [ih (i + 1) (slept + 1) j (by omega) (by omega) hj
              (fun k hk1 hk2 => hmin k (by omega) hk2)]
        simp only [Prod.mk.injEq]
        exact ⟨trivial, by omega⟩

/-- C2 counterexample: with `t = 2` and neither flag ever set, `SleepUs`
returns "completed" (0) after performing only one 1-microsecond sleep —
not the two microseconds the claim's "up to t microseconds total / full
duration t elapses" requires (the loop `for (int i = 1; i < t; i++)` runs
`t - 1` iterations). -/
theorem sleepUs_full_duration_counterexample :
    (SleepUs 2 (fun _ => false)).1 = 0 ∧ (SleepUs 2 (fun _ => false)).2 = 1 ∧
      ¬ (SleepUs 2 (fun _ => false)).2 = 2 := by
  decide

/-- C2 (amended): `SleepUs(t)` sleeps in 1-microsecond increments, at most
`t - 1` of them, checking `mReset || mExit` after every increment; it
returns interrupted (1) immediately at the first check that observes a
flag, and returns completed (0) after all `t - 1` uninterrupted
increments. -/
theorem sleepUs_increments_amended (t : Nat) (flagAt : Nat → Bool) :
    ((∀ i, 1 ≤ i → i < t → flagAt i = false) → SleepUs t flagAt = (0, t - 1)) ∧
    (∀ j, 1 ≤ j → j < t → flagAt j = true →
      (∀ i, 1 ≤ i → i < j → flagAt i = false) → SleepUs t flagAt = (1, j)) := by
  constructor
  · intro h
    unfold SleepUs
    rw [sleepUsGo_no_flag flagAt (t - 1) 1 0 (fun k hk1 hk2 => h k hk1 (by omega))]
    simp
  · intro j hj1 hjt hj hmin
    unfold SleepUs
    rw [sleepUsGo_first_flag flagAt (t - 1) 1 0 j hj1 (by omega) hj hmin]
    simp only [Prod.mk.injEq]
    exact ⟨trivial, by omega⟩

/-- C2 witness: the amended statement evaluated at `t = 5` with a
never-set flag (completes after 4 sleeps) and with the flag first set at
the second check (interrupted after 2 sleeps). -/
theorem sleepUs_increments_amended_witness :
    SleepUs 5 (fun _ => false) = (0, 4) ∧ SleepUs 5 (fun i => i == 2) = (1, 2) := by
  constructor
  · exact (sleepUs_increments_amended 5 (fun _ => false)).1 (fun i _ _ => rfl)
  · refine (sleepUs_increments_amended 5 (fun i => i == 2)).2 2 (by omega) (by omega) rfl ?_
    intro i h1 h2
    have hi : i = 1 := by omega
    subst hi
    rfl

/-- C3: `Reset()`, callable in any state, sets `mReset`, zeroes
`mExpired`, and issues `notify_all`; immediately afterwards `Expired()`
returns false, and the other fields (`mExit`, `mSleptTime`) are untouched.
The last conjunct ties the pure `Reset` to the transition system's
`resetStep`: they produce the same shared state. -/
theorem reset_sets_flag_zeroes_expired_notifies (s : AlarmState) :
    (Reset s).1.mReset = true ∧ (Reset s).1.mExpired = 0 ∧
    (Reset s).2 = true ∧ Expired (Reset s).1 = false ∧
    (Reset s).1.mExit = s.mExit ∧ (Reset s).1.mSleptTime = s.mSleptTime ∧
    (∀ c : Sys, (resetStep c).shared = (Reset c.shared).1) := by
  exact ⟨rfl, rfl, rfl, rfl, rfl, rfl, fun c => rfl⟩

/-- C6: `Expired()` returns true exactly when `mExpired` is nonzero, and
it has no side effects: the state after the call is the state before. -/
theorem expired_reads_nonzero_no_side_effects (s : AlarmState) :
    ((ExpiredOp s).1 = true ↔ s.mExpired ≠ 0) ∧ (ExpiredOp s).2 = s := by
  constructor
  · simp [ExpiredOp]
  · rfl

/-- C8: the join in `StopBackgroundThread` is performed exactly when the
thread is joinable and `mExit` is true; and on the destructor path (which
stores `mExit` first) the join is performed exactly when the thread is
joinable. -/
theorem join_iff_joinable_and_exit (joinable : Bool) (s : AlarmState) :
    (StopBackgroundThread joinable s = true ↔ joinable = true ∧ s.mExit = true) ∧
    (destructor joinable s).2 = joinable := by
  constructor
  · simp [StopBackgroundThread]
  · simp [destructor, StopBackgroundThread]

/-- The post-sleep step leaves `mExpired` at `s.mExpired` whenever the
strategy reported an interruption. -/
lemma handleSleepResult_interrupted (r : Nat) (s : AlarmState) (h : r ≠ 0) :
    (handleSleepResult r s).1 = s := by
  unfold handleSleepResult
  rw [if_neg (by simpa using h)]
  split <;> rfl

/-- C4: `mExpired` is incremented exactly when the sleep strategy returns
0 ("completed") and unchanged when it returns nonzero ("interrupted");
hence an injected strategy constantly returning 0 adds one expiry per loop
iteration, and one constantly returning 1 never lets `mExpired` grow. -/
theorem expired_increment_iff_completed (r : Nat) (s : AlarmState) :
    ((handleSleepResult r s).1.mExpired = s.mExpired + 1 ↔ r = 0) ∧
    (r ≠ 0 → (handleSleepResult r s).1.mExpired = s.mExpired) ∧
    (∀ n, (iterateStrategy 0 n s).mExpired = s.mExpired + n) ∧
    (∀ n, (iterateStrategy 1 n s).mExpired = s.mExpired) := by
  refine ⟨?_, ?_, ?_, ?_⟩
  · constructor
    · intro h
      by_contra hr
      rw [handleSleepResult_interrupted r s hr] at h
      omega
    · intro h
      subst h
      rfl
  · intro h
    rw [handleSleepResult_interrupted r s h]
  · intro n
    induction n generalizing s with
    | zero => rfl
    | succ m ih =>
        show (iterateStrategy 0 m (handleSleepResult 0 s).1).mExpired = _
        rw [ih]
        show s.mExpired + 1 + m = s.mExpired + (m + 1)
        omega
  · intro n
    induction n generalizing s with
    | zero => rfl
    | succ m ih =>
        show (iterateStrategy 1 m (handleSleepResult 1 s).1).mExpired = _
        rw [handleSleepResult_interrupted 1 s (by omega), ih]

/-- C4 witness: three iterations of an immediately-completing strategy add
three expiries; three iterations of an always-interrupting strategy add
none; the single-step facts at `r = 0` and `r = 1`. -/
theorem expired_increment_iff_completed_witness :
    (iterateStrategy 0 3 AlarmClock.construct).mExpired = 3 ∧
    (iterateStrategy 1 3 AlarmClock.construct).mExpired = 0 ∧
    (handleSleepResult 1 AlarmClock.construct).1.mExpired = 0 := by
  refine ⟨?_, ?_, ?_⟩
  · exact (expired_increment_iff_completed 0 AlarmClock.construct).2.2.1 3
  · exact (expired_increment_iff_completed 1 AlarmClock.construct).2.2.2 3
  · exact (expired_increment_iff_completed 1 AlarmClock.construct).2.1 (by omega)

/-- No worker-step branch writes `mExit` or `mSleptTime`: the worker only
reads them. -/
lemma workerStep_preserves_flags (t : Nat) {c c' : Sys}
    (h : workerStep t c = some c') :
    c'.shared.mExit = c.shared.mExit ∧
      c'.shared.mSleptTime = c.shared.mSleptTime := by
  rcases c with ⟨sh, lc⟩
  cases lc <;> simp only [workerStep] at h <;>
    first
      | exact Option.noConfusion h
      | (repeat' split at h) <;> (cases h; exact ⟨rfl, rfl⟩)

/-- C7: `mExit` starts false at construction, every step keeps it true
once true, and no event other than the destructor's store changes it. -/
theorem exit_flag_monotone :
    initSys.shared.mExit = false ∧
    (∀ t c e c', Step t c e c' → c.shared.mExit = true → c'.shared.mExit = true) ∧
    (∀ t c e c', Step t c e c' → e ≠ Ev.exitStore →
      c'.shared.mExit = c.shared.mExit) := by
  refine ⟨rfl, ?_, ?_⟩
  · intro t c e c' hstep hex
    cases hstep with
    | worker h => rw [(workerStep_preserves_flags t h).1, hex]
    | resetCall => exact hex
    | exitStore => rfl
  · intro t c e c' hstep hne
    cases hstep with
    | worker h => exact (workerStep_preserves_flags t h).1
    | resetCall => rfl
    | exitStore => exact absurd rfl hne

/-- C7 witness: a `Reset()` step from a state with `mExit` already true
leaves it true. -/
theorem exit_flag_monotone_witness :
    (resetStep { shared := { mExpired := 0, mSleptTime := 0, mExit := true,
                             mReset := false },
                 loc := Loc.run }).shared.mExit = true :=
  exit_flag_monotone.2.1 0 _ Ev.resetCall _ (Step.resetCall _) rfl

/-- C10: `mSleptTime` is 0 at construction, no step of any thread ever
writes it, so `SleptTime()` returns 0 in every reachable configuration. -/
theorem sleptTime_always_zero :
    AlarmClock.construct.mSleptTime = 0 ∧
    (∀ t c e c', Step t c e c' → c'.shared.mSleptTime = c.shared.mSleptTime) ∧
    (∀ t c, Reach t initSys c → SleptTime c.shared = 0) := by
  have hstep : ∀ t (c : Sys) e c', Step t c e c' →
      c'.shared.mSleptTime = c.shared.mSleptTime := by
    intro t c e c' hs
    cases hs with
    | worker h => exact (workerStep_preserves_flags t h).2
    | resetCall => rfl
    | exitStore => rfl
  refine ⟨rfl, hstep, ?_⟩
  intro t c hr
  induction hr with
  | refl => rfl
  | tail _ hbc ih =>
      obtain ⟨e, hs⟩ := hbc
      have hpres := hstep t _ e _ hs
      simp only [SleptTime] at ih ⊢
      rw [hpres]
      exact ih

/-- C10 witness: the invariant evaluated at the initial configuration. -/
theorem sleptTime_always_zero_witness : SleptTime initSys.shared = 0 :=
  sleptTime_always_zero.2.2 0 initSys Relation.ReflTransGen.refl

/-- C5: at the mutex-protected post-sleep step the worker parks on the
condition variable exactly when `mReset` is false (a pending reset skips
the wait); the next step clears `mReset`; and the loop guard exits exactly
when `mExit` is true. -/
theorem postsleep_wait_iff_no_reset (t : Nat) (c : Sys) :
    (c.loc = Loc.checkReset →
      ((workerStep t c = some { c with loc := Loc.waiting }) ↔
          c.shared.mReset = false) ∧
      (c.shared.mReset = true →
          workerStep t c = some { c with loc := Loc.clearReset })) ∧
    (c.loc = Loc.clearReset →
      workerStep t c =
        some { shared := { c.shared with mReset := false },
               loc := Loc.loopCheck }) ∧
    (c.loc = Loc.loopCheck →
      workerStep t c =
        some { c with loc := if c.shared.mExit then Loc.exited else Loc.run }) := by
  obtain ⟨sh, lc⟩ := c
  refine ⟨?_, ?_, ?_⟩
  · intro h
    have h' : lc = Loc.checkReset := h
    subst h'
    cases hr : sh.mReset <;> simp [workerStep, hr]
  · intro h
    have h' : lc = Loc.clearReset := h
    subst h'
    rfl
  · intro h
    have h' : lc = Loc.loopCheck := h
    subst h'
    cases he : sh.mExit <;> simp [workerStep, he]

/-- C5 witness: in the freshly constructed state (no reset pending) the
check step parks the worker. -/
theorem postsleep_wait_iff_no_reset_witness :
    workerStep 0 { shared := AlarmClock.construct, loc := Loc.checkReset } =
      some { shared := AlarmClock.construct, loc := Loc.waiting } :=
  ((postsleep_wait_iff_no_reset 0
      { shared := AlarmClock.construct, loc := Loc.checkReset }).1 rfl).1.mpr rfl

/-- C9: no missed resets.  `Reset()` always leaves `mReset` set; a reset
arriving while the worker is parked wakes it (it resumes at
`mReset.store(false)`); a reset arriving anywhere else leaves the worker's
location alone but the flag set, so the worker's next check — the
mutex-protected `if (!mReset)` or the per-microsecond check inside
`SleepUs` — observes it and skips the wait / interrupts the sleep. -/
theorem reset_observed_no_missed_resets (t : Nat) (c : Sys) :
    (resetStep c).shared.mReset = true ∧
    (c.loc = Loc.waiting → (resetStep c).loc = Loc.clearReset) ∧
    (¬ c.loc = Loc.waiting → (resetStep c).loc = c.loc) ∧
    (c.loc = Loc.checkReset → c.shared.mReset = true →
      workerStep t c = some { c with loc := Loc.clearReset }) ∧
    (∀ i, c.loc = Loc.sleeping i → i < t → c.shared.mReset = true →
      workerStep t c = some { c with loc := Loc.afterSleep 1 }) := by
  obtain ⟨sh, lc⟩ := c
  refine ⟨rfl, ?_, ?_, ?_, ?_⟩
  · intro h
    have h' : lc = Loc.waiting := h
    subst h'
    rfl
  · intro h
    have h' : ¬ lc = Loc.waiting := h
    show (if lc = Loc.waiting then Loc.clearReset else lc) = lc
    rw [if_neg h']
  · intro h hr
    have h' : lc = Loc.checkReset := h
    subst h'
    have hr' : sh.mReset = true := hr
    simp [workerStep, hr']
  · intro i h hit hr
    have h' : lc = Loc.sleeping i := h
    subst h'
    have hr' : sh.mReset = true := hr
    simp [workerStep, hit, hr']

/-- C9 witness: a reset delivered to the parked configuration wakes the
worker into the flag-clearing step. -/
theorem reset_observed_no_missed_resets_witness :
    (resetStep parkedSys).loc = Loc.clearReset :=
  (reset_observed_no_missed_resets 0 parkedSys).2.1 rfl

/-- A parked worker has no enabled step of its own. -/
lemma workerStep_waiting (t : Nat) (sh : AlarmState) :
    workerStep t { shared := sh, loc := Loc.waiting } = none := rfl

/-- During teardown (worker steps and the destructor's store only — no
`Reset()` happens any more), a parked worker stays parked forever: nothing
on the destructor path issues a notify. -/
lemma teardown_keeps_waiting {t : Nat} {c c' : Sys}
    (h : Relation.ReflTransGen (TeardownStep t) c c')
    (hw : c.loc = Loc.waiting) : c'.loc = Loc.waiting := by
  induction h with
  | refl => exact hw
  | tail hab hbc ih =>
      rename_i b c2
      cases hbc with
      | inl hwk =>
          cases hwk with
          | worker hstep =>
              obtain ⟨sh, lc⟩ := b
              have h' : lc = Loc.waiting := ih
              subst h'
              rw [workerStep_waiting t sh] at hstep
              exact Option.noConfusion hstep
      | inr hex =>
          cases hex with
          | exitStore => exact ih

/-- C1 (code bug): the destructor path does not terminate when the worker
is parked.  Concretely: with `kSleepTimeUsCount = 0` the worker expires
immediately and parks on `mCondition` (first conjunct: `parkedSys` is
reachable from construction by worker steps alone); the destructor's
`mExit.store(true)` sets the flag but leaves the worker parked (second and
third conjuncts: no notify is issued on this path); and from there every
interleaving of worker steps and destructor actions — `Reset()` is no
longer called — keeps the worker parked, so it never reaches `exited` and
`mTimerThread.join()` inside `StopBackgroundThread` blocks forever
(fourth conjunct).  This contradicts the claim that teardown notifies the
condition variable and always completes. -/
theorem teardown_parked_worker_never_exits :
    Reach 0 initSys parkedSys ∧
    (exitStoreStep parkedSys).shared.mExit = true ∧
    (exitStoreStep parkedSys).loc = Loc.waiting ∧
    (∀ c', Relation.ReflTransGen (TeardownStep 0) (exitStoreStep parkedSys) c' →
      c'.loc = Loc.waiting ∧ ¬ c'.loc = Loc.exited) := by
  refine ⟨?_, rfl, rfl, ?_⟩
  · have s1 : StepAny 0 initSys
        { shared := AlarmClock.construct, loc := Loc.sleeping 1 } :=
      ⟨Ev.worker, Step.worker (by decide)⟩
    have s2 : StepAny 0 { shared := AlarmClock.construct, loc := Loc.sleeping 1 }
        { shared := AlarmClock.construct, loc := Loc.afterSleep 0 } :=
      ⟨Ev.worker, Step.worker (by decide)⟩
    have s3 : StepAny 0 { shared := AlarmClock.construct, loc := Loc.afterSleep 0 }
        { shared := parkedSys.shared, loc := Loc.preLock } :=
      ⟨Ev.worker, Step.worker (by decide)⟩
    have s4 : StepAny 0 { shared := parkedSys.shared, loc := Loc.preLock }
        { shared := parkedSys.shared, loc := Loc.checkReset } :=
      ⟨Ev.worker, Step.worker (by decide)⟩
    have s5 : StepAny 0 { shared := parkedSys.shared, loc := Loc.checkReset }
        parkedSys :=
      ⟨Ev.worker, Step.worker (by decide)⟩
    exact Relation.ReflTransGen.head s1 (Relation.ReflTransGen.head s2
      (Relation.ReflTransGen.head s3 (Relation.ReflTransGen.head s4
        (Relation.ReflTransGen.head s5 Relation.ReflTransGen.refl))))
  · intro c' h
    have hw : c'.loc = Loc.waiting := teardown_keeps_waiting h rfl
    refine ⟨hw, ?_⟩
    intro hx
    rw [hw] at hx
    exact Loc.noConfusion hx

/-- C1 witness: the stuck-at-`waiting` conclusion applied to the empty
teardown trace. -/
theorem teardown_parked_worker_never_exits_witness :
    (exitStoreStep parkedSys).loc = Loc.waiting ∧
      ¬ (exitStoreStep parkedSys).loc = Loc.exited :=
  teardown_parked_worker_never_exits.2.2.2 (exitStoreStep parkedSys)
    Relation.ReflTransGen.refl
